import Mathlib

/-!
Verification of the synaplan qdrant-service storage layer.

This file gives a shallow embedding, in Lean, of the storage-abstraction code
of the service (src/qdrant-service/src/qdrant.rs, handlers.rs, error.rs,
models.rs) and proves properties about it.

Modelling conventions:
* Rust structs become Lean structures with the same field names
  (the Rust field `namespace` is rendered `ns` because `namespace` is a Lean
  keyword).
* `f32` vectors become `List Float`; no claim depends on the float values,
  only on vector lengths, so floats are carried but never computed with.
* The external Qdrant client is modelled as an `Engine` record of response
  oracles, one per client method the code calls.  Each embedded operation
  returns its Rust `Result` as an `Except AppError _` value, paired with the
  ordered list of engine calls it issued (`List EngineCall`), so that
  "no engine call is attempted" and "the filter sent to the engine" are
  directly expressible.
* `std::collections::hash_map::DefaultHasher` is external library state-free
  code; the wrapper `string_to_point_id` is modelled by threading an abstract
  `hasher : String → Nat` parameter through the operations.  No claim depends
  on concrete hash values, only on the mapped id being used consistently.
* Stored payloads read back from the engine are modelled as the typed record
  plus the optional reserved `_point_id` entry (`reservedPointId`).  A stored
  `_point_id` entry that is absent or not a string is modelled as `none`,
  matching the `get("_point_id").and_then(|v| v.as_str())` read.  Payload
  serialisation through serde, which cannot fail on these well-typed records,
  is modelled as the identity.
* Log statements, metrics counters and score thresholds (engine-side
  filtering on `min_score`) are elided: no claim concerns them.
-/

namespace Synaplan

/-- Memory payload structure (models.rs `MemoryPayload`). -/
structure MemoryPayload where
  user_id : Int
  category : String
  key : String
  value : String
  source : String
  message_id : Option Int
  created : Int
  updated : Int
  active : Bool
deriving DecidableEq

/-- Document chunk payload (models.rs `DocumentPayload`). -/
structure DocumentPayload where
  user_id : Int
  file_id : Int
  group_key : String
  file_type : Int
  chunk_index : Int
  start_line : Int
  end_line : Int
  text : String
  created : Int
deriving DecidableEq

/-- Application error taxonomy (error.rs `AppError`).  The `Qdrant` variant
carries the engine error rendered to a string, since the code only ever logs
it or maps it to a generic response. -/
inductive AppError where
  | Qdrant (detail : String)
  | NotFound (msg : String)
  | InvalidRequest (msg : String)
  | Internal (msg : String)
deriving DecidableEq

/-- The `thiserror` `Display` implementation of `AppError` (error.rs
`#[error(...)]` attributes), used by the batch handlers via `e.to_string()`. -/
def AppError.toDisplayString : AppError → String
  | .Qdrant detail => "Qdrant error: " ++ detail
  | .NotFound msg => "Not found: " ++ msg
  | .InvalidRequest msg => "Invalid request: " ++ msg
  | .Internal msg => "Internal error: " ++ msg

/-- The `IntoResponse` implementation of `AppError` (error.rs), reduced to the
pair (HTTP status code, message placed in the JSON body). -/
def AppError.into_response : AppError → Nat × String
  | .NotFound msg => (404, msg)
  | .InvalidRequest msg => (400, msg)
  | .Qdrant _ => (500, "Database operation failed")
  | .Internal msg => (500, msg)

/-- Rust `char::is_ascii_alphanumeric` (std), expressed on code points. -/
def isAsciiAlphanumeric (c : Char) : Bool :=
  (48 ≤ c.toNat && c.toNat ≤ 57) ||
  (65 ≤ c.toNat && c.toNat ≤ 90) ||
  (97 ≤ c.toNat && c.toNat ≤ 122)

/-- Rust `char::to_ascii_lowercase` (std): shift an ASCII uppercase letter
down by 32 code points, leave every other character unchanged. -/
def toAsciiLowercase (c : Char) : Char :=
  if 65 ≤ c.toNat && c.toNat ≤ 90 then Char.ofNat (c.toNat + 32) else c

/-- Rust `str::trim_matches('_')` (std): remove leading and trailing
underscores. -/
def trimMatchesUnderscore (l : List Char) : List Char :=
  (((l.dropWhile (fun c => c == '_')).reverse.dropWhile (fun c => c == '_')).reverse)

/-- Loop body of `QdrantService::sanitize_namespace` (qdrant.rs 431-437):
ASCII alphanumerics are pushed lower-cased, dash and underscore are pushed as
underscore, every other character is skipped. -/
def sanitizePush (output : List Char) (ch : Char) : List Char :=
  if isAsciiAlphanumeric ch then output ++ [toAsciiLowercase ch]
  else if ch == '-' || ch == '_' then output ++ ['_']
  else output

/-- `QdrantService::sanitize_namespace` (qdrant.rs 429-440). -/
def sanitize_namespace (value : String) : String :=
  let output := value.data.foldl sanitizePush []
  String.mk (trimMatchesUnderscore output)

/-- The service configuration fields `QdrantService` keeps (qdrant.rs 23-28;
the client handle itself is modelled separately as `Engine`). -/
structure QdrantService where
  collection_name : String
  documents_collection_name : String
  vector_dimension : Nat
deriving DecidableEq

/-- `QdrantService::get_collection_name` (qdrant.rs 412-427). -/
def get_collection_name (svc : QdrantService) (ns : Option String) : String :=
  let nsv := ns.bind (fun value =>
    let sanitized := sanitize_namespace value
    if sanitized.isEmpty then none else some sanitized)
  match nsv with
  | some n => svc.collection_name ++ "_" ++ n
  | none => svc.collection_name

/-- Scalar values that appear in `Condition::matches` filters (qdrant client).
The code only ever matches on integer, boolean and keyword (text) fields. -/
inductive FieldValue where
  | int (i : Int)
  | bool (b : Bool)
  | text (s : String)
deriving DecidableEq

/-- A `must` filter condition `Condition::matches(field, value)`. -/
structure Condition where
  field : String
  value : FieldValue
deriving DecidableEq

/-- `Condition::matches` on an i64 field. -/
def Condition.matchesInt (field : String) (i : Int) : Condition :=
  ⟨field, .int i⟩

/-- `Condition::matches` on a bool field. -/
def Condition.matchesBool (field : String) (b : Bool) : Condition :=
  ⟨field, .bool b⟩

/-- `Condition::matches` on a keyword (string) field. -/
def Condition.matchesText (field : String) (s : String) : Condition :=
  ⟨field, .text s⟩

/-- Native point identifier alternatives (qdrant client `PointIdOptions`). -/
inductive PointIdOptions where
  | Num (num : Nat)
  | Uuid (uuid : String)
deriving DecidableEq

/-- A memory point as returned by the engine from get/scroll calls: its native
id, its typed payload, and the reserved `_point_id` payload entry when it is
present and a string. -/
structure MemoryPoint where
  id : Option PointIdOptions
  payload : MemoryPayload
  reservedPointId : Option String

/-- A memory point as returned by the engine from a search call (adds the
similarity score). -/
structure ScoredMemoryPoint where
  id : Option PointIdOptions
  score : Float
  payload : MemoryPayload
  reservedPointId : Option String

/-- A document point as returned by the engine from a search call. -/
structure ScoredDocumentPoint where
  id : Option PointIdOptions
  score : Float
  payload : DocumentPayload
  reservedPointId : Option String

/-- One call issued to the engine.  Vector data and payload contents of write
calls are elided (no claim concerns them); identifiers, collection names and
filters are kept. -/
inductive EngineCall where
  | listCollections
  | createCollection (collection : String)
  | createFieldIndex (collection : String) (field : String)
  | upsertPoints (collection : String) (numericIds : List Nat)
  | getPoints (collection : String) (numericIds : List Nat)
  | searchPoints (collection : String) (must : List Condition) (limit : Nat)
  | scrollPoints (collection : String) (must : List Condition) (limit : Nat)
  | deletePoints (collection : String)
  | setPayload (collection : String) (must : List Condition)
      (patch : List (String × FieldValue))
deriving DecidableEq

/-- Response oracles for the external Qdrant client: one entry per client
method the embedded code calls, giving the engine's reply.  An `Except.error`
reply is a `QdrantError` carried as a string. -/
structure Engine where
  listCollectionsResult : Except String (List String)
  createCollectionResult : String → Except String Unit
  createFieldIndexResult : String → String → Except String Unit
  upsertPointsResult : String → Nat → Except String Unit
  getPointsResult : String → Nat → Except String (List MemoryPoint)
  searchMemoryResult : String → List Condition → Except String (List ScoredMemoryPoint)
  scrollMemoryResult : String → List Condition → Except String (List MemoryPoint)
  searchDocumentResult : String → List Condition → Except String (List ScoredDocumentPoint)
  setPayloadResult : String → Except String Unit

/-- Engine-side filter semantics on stored memory payloads: the field map a
stored memory point exposes to `Condition::matches`.  The stored map holds the
serialized `MemoryPayload` fields plus the reserved `_point_id` entry. -/
def memoryPayloadField (p : MemoryPayload) (reserved : Option String)
    (f : String) : Option FieldValue :=
  if f = "user_id" then some (.int p.user_id)
  else if f = "category" then some (.text p.category)
  else if f = "key" then some (.text p.key)
  else if f = "value" then some (.text p.value)
  else if f = "source" then some (.text p.source)
  else if f = "message_id" then p.message_id.map FieldValue.int
  else if f = "created" then some (.int p.created)
  else if f = "updated" then some (.int p.updated)
  else if f = "active" then some (.bool p.active)
  else if f = "_point_id" then reserved.map FieldValue.text
  else none

/-- A single condition holds of a field map when the field is present with
exactly the condition's value (Qdrant match semantics). -/
def conditionHolds (lookup : String → Option FieldValue) (c : Condition) : Bool :=
  match lookup c.field with
  | some v => v == c.value
  | none => false

/-- A conjunctive (`must`) filter holds of a stored memory payload when every
condition holds. -/
def memoryFilterHolds (p : MemoryPayload) (reserved : Option String)
    (must : List Condition) : Bool :=
  must.all (conditionHolds (memoryPayloadField p reserved))

/-- `ensure_collection_exists_for` (qdrant.rs 92-117): list the collections;
create the collection when the name is not listed.  Any engine failure,
including a create that fails because a concurrent caller created the
collection first, is propagated by `?`. -/
def ensure_collection_exists_for (eng : Engine) (collection_name : String) :
    Except AppError Unit × List EngineCall :=
  match eng.listCollectionsResult with
  | .error e => (.error (.Qdrant e), [.listCollections])
  | .ok collections =>
    if collections.any (fun c => c = collection_name) then
      (.ok (), [.listCollections])
    else
      match eng.createCollectionResult collection_name with
      | .error e =>
        (.error (.Qdrant e), [.listCollections, .createCollection collection_name])
      | .ok _ =>
        (.ok (), [.listCollections, .createCollection collection_name])

/-- `ensure_collection_exists_for_documents` (qdrant.rs 55-90): as above, but
after a successful create it also creates the three payload field indexes,
again propagating any engine failure by `?`. -/
def ensure_collection_exists_for_documents (eng : Engine) (collection_name : String) :
    Except AppError Unit × List EngineCall :=
  match eng.listCollectionsResult with
  | .error e => (.error (.Qdrant e), [.listCollections])
  | .ok collections =>
    if collections.any (fun c => c = collection_name) then
      (.ok (), [.listCollections])
    else
      let calls := [EngineCall.listCollections, .createCollection collection_name]
      match eng.createCollectionResult collection_name with
      | .error e => (.error (.Qdrant e), calls)
      | .ok _ =>
        let calls := calls ++ [.createFieldIndex collection_name "user_id"]
        match eng.createFieldIndexResult collection_name "user_id" with
        | .error e => (.error (.Qdrant e), calls)
        | .ok _ =>
          let calls := calls ++ [.createFieldIndex collection_name "file_id"]
          match eng.createFieldIndexResult collection_name "file_id" with
          | .error e => (.error (.Qdrant e), calls)
          | .ok _ =>
            let calls := calls ++ [.createFieldIndex collection_name "group_key"]
            match eng.createFieldIndexResult collection_name "group_key" with
            | .error e => (.error (.Qdrant e), calls)
            | .ok _ => (.ok (), calls)

/-- `upsert_memory` (qdrant.rs 119-164): dimension guard, payload encoding
with the reserved `_point_id` entry (elided from the call trace), native id
mapping, lazy collection provisioning, then a single-point upsert. -/
def upsert_memory (svc : QdrantService) (eng : Engine) (hasher : String → Nat)
    (point_id : String) (vector : List Float) (_payload : MemoryPayload)
    (ns : Option String) : Except AppError Unit × List EngineCall :=
  if vector.length ≠ svc.vector_dimension then
    (.error (.InvalidRequest ("Vector dimension mismatch: expected " ++
      toString svc.vector_dimension ++ ", got " ++ toString vector.length)), [])
  else
    let numeric_id := hasher point_id
    let collection_name := get_collection_name svc ns
    match ensure_collection_exists_for eng collection_name with
    | (.error e, calls) => (.error e, calls)
    | (.ok _, calls) =>
      let calls := calls ++ [.upsertPoints collection_name [numeric_id]]
      match eng.upsertPointsResult collection_name numeric_id with
      | .error e => (.error (.Qdrant e), calls)
      | .ok _ => (.ok (), calls)

/-- `get_memory` (qdrant.rs 166-197): fetch by the mapped native id with
payload; an empty result list yields `Ok(None)`. -/
def get_memory (svc : QdrantService) (eng : Engine) (hasher : String → Nat)
    (point_id : String) (ns : Option String) :
    Except AppError (Option MemoryPayload) × List EngineCall :=
  let numeric_id := hasher point_id
  let collection_name := get_collection_name svc ns
  let calls := [EngineCall.getPoints collection_name [numeric_id]]
  match eng.getPointsResult collection_name numeric_id with
  | .error e => (.error (.Qdrant e), calls)
  | .ok result =>
    match result.head? with
    | some point => (.ok (some point.payload), calls)
    | none => (.ok none, calls)

/-- The caller-visible id reconstruction shared verbatim by `search_memories`
(qdrant.rs 247-261) and `scroll_memories` (qdrant.rs 375-389): the reserved
`_point_id` payload string when present, otherwise the native numeric id
rendered in decimal, a UUID id verbatim, or `"unknown"`. -/
def memoryPointIdOrNumeric (reserved : Option String)
    (id : Option PointIdOptions) : String :=
  match reserved with
  | some s => s
  | none =>
    match id with
    | some (.Num num) => toString num
    | some (.Uuid uuid) => uuid
    | none => "unknown"

/-- The must-condition construction duplicated verbatim by `search_memories`
(qdrant.rs 216-224) and `scroll_memories` (qdrant.rs 339-347): start from the
owner match, push the active-flag match, and push a category match when a
category argument is given. -/
def memoriesMustConditions (user_id : Int) (category : Option String) :
    List Condition :=
  let must := [Condition.matchesInt "user_id" user_id]
  let must := must ++ [Condition.matchesBool "active" true]
  match category with
  | some cat => must ++ [Condition.matchesText "category" cat]
  | none => must

/-- `search_memories` (qdrant.rs 199-278): dimension guard, conjunctive
`must` filter on owner, active flag and optional category, engine search,
then id reconstruction and payload decoding. -/
def search_memories (svc : QdrantService) (eng : Engine)
    (query_vector : List Float) (user_id : Int) (category : Option String)
    (limit : Nat) (_min_score : Float) (ns : Option String) :
    Except AppError (List (String × Float × MemoryPayload)) × List EngineCall :=
  if query_vector.length ≠ svc.vector_dimension then
    (.error (.InvalidRequest ("Query vector dimension mismatch: expected " ++
      toString svc.vector_dimension ++ ", got " ++ toString query_vector.length)), [])
  else
    let must := memoriesMustConditions user_id category
    let collection_name := get_collection_name svc ns
    let calls := [EngineCall.searchPoints collection_name must limit]
    match eng.searchMemoryResult collection_name must with
    | .error e => (.error (.Qdrant e), calls)
    | .ok points =>
      (.ok (points.map (fun sp =>
        (memoryPointIdOrNumeric sp.reservedPointId sp.id, sp.score, sp.payload))),
       calls)

/-- `scroll_memories` (qdrant.rs 332-410): the same conjunctive filter as
`search_memories`, issued through the scroll API (no query vector, no
scores), then the same id reconstruction and payload decoding. -/
def scroll_memories (svc : QdrantService) (eng : Engine) (user_id : Int)
    (category : Option String) (limit : Nat) (ns : Option String) :
    Except AppError (List (String × MemoryPayload)) × List EngineCall :=
  let must := memoriesMustConditions user_id category
  let collection_name := get_collection_name svc ns
  let calls := [EngineCall.scrollPoints collection_name must limit]
  match eng.scrollMemoryResult collection_name must with
  | .error e => (.error (.Qdrant e), calls)
  | .ok points =>
    (.ok (points.map (fun p =>
      (memoryPointIdOrNumeric p.reservedPointId p.id, p.payload))), calls)

/-- Document search result (models.rs `DocumentSearchResult`). -/
structure DocumentSearchResult where
  id : String
  score : Float
  payload : DocumentPayload
  vector : Option (List Float)

/-- `upsert_document` (qdrant.rs 443-477): payload encoding with the reserved
`_point_id` entry (elided from the call trace), native id mapping, then a
single-point upsert into the documents collection.  Note: no dimension guard
and no lazy provisioning here; the guard lives in the handler. -/
def upsert_document (svc : QdrantService) (eng : Engine) (hasher : String → Nat)
    (point_id : String) (_vector : List Float) (_payload : DocumentPayload) :
    Except AppError Unit × List EngineCall :=
  let collection := svc.documents_collection_name
  let numeric_id := hasher point_id
  let calls := [EngineCall.upsertPoints collection [numeric_id]]
  match eng.upsertPointsResult collection numeric_id with
  | .error e => (.error (.Qdrant e), calls)
  | .ok _ => (.ok (), calls)

/-- The must-condition construction of `search_documents` (qdrant.rs
490-499): always the owner match, plus a group-key match when one is given. -/
def documentsMustConditions (user_id : Int) (group_key : Option String) :
    List Condition :=
  let conditions := [Condition.matchesInt "user_id" user_id]
  match group_key with
  | some gk => conditions ++ [Condition.matchesText "group_key" gk]
  | none => conditions

/-- `search_documents` (qdrant.rs 480-536): conjunctive filter on owner and
optional group key, engine search, then result assembly.  The caller-visible
id falls back to the empty string when the reserved `_point_id` entry is
absent (`unwrap_or("")`). -/
def search_documents (svc : QdrantService) (eng : Engine)
    (_query_vector : List Float) (user_id : Int) (group_key : Option String)
    (limit : Nat) (_min_score : Float) :
    Except AppError (List DocumentSearchResult) × List EngineCall :=
  let collection := svc.documents_collection_name
  let conditions := documentsMustConditions user_id group_key
  let calls := [EngineCall.searchPoints collection conditions limit]
  match eng.searchDocumentResult collection conditions with
  | .error e => (.error (.Qdrant e), calls)
  | .ok points =>
    (.ok (points.map (fun p =>
      ⟨p.reservedPointId.getD "", p.score, p.payload, none⟩)), calls)

/-- `update_document_group_key` (qdrant.rs 667-697): a filtered `set_payload`
carrying only the `group_key` entry, then the constant `Ok(1)` (the source
comments that Qdrant does not report a count for `set_payload`). -/
def update_document_group_key (svc : QdrantService) (eng : Engine)
    (user_id : Int) (file_id : Int) (new_group_key : String) :
    Except AppError Nat × List EngineCall :=
  let collection := svc.documents_collection_name
  let filter := [Condition.matchesInt "user_id" user_id,
                 Condition.matchesInt "file_id" file_id]
  let calls := [EngineCall.setPayload collection filter
                  [("group_key", FieldValue.text new_group_key)]]
  match eng.setPayloadResult collection with
  | .error e => (.error (.Qdrant e), calls)
  | .ok _ => (.ok 1, calls)

/-- Upsert-memory request body (models.rs `UpsertMemoryRequest`; the Rust
field `namespace` is rendered `ns`). -/
structure UpsertMemoryRequest where
  point_id : String
  vector : List Float
  payload : MemoryPayload
  ns : Option String

/-- Upsert-document request body (models.rs `UpsertDocumentRequest`). -/
structure UpsertDocumentRequest where
  point_id : String
  vector : List Float
  payload : DocumentPayload

/-- Search-documents request body (models.rs `SearchDocumentsRequest`). -/
structure SearchDocumentsRequest where
  vector : List Float
  user_id : Int
  group_key : Option String
  limit : Nat
  min_score : Float

/-- Memory response body (models.rs `MemoryResponse`). -/
structure MemoryResponse where
  id : String
  payload : MemoryPayload
deriving DecidableEq

/-- One failed item of a memory batch (models.rs `BatchError`). -/
structure BatchError where
  point_id : String
  error : String
deriving DecidableEq

/-- Memory batch outcome (models.rs `BatchOperationResponse`). -/
structure BatchOperationResponse where
  success_count : Nat
  failed_count : Nat
  errors : List BatchError
deriving DecidableEq

/-- Document batch outcome (models.rs `BatchUpsertResponse`). -/
structure BatchUpsertResponse where
  success_count : Nat
  failed_count : Nat
  errors : List String
deriving DecidableEq

/-- Handler `get_memory` (handlers.rs 125-142): a store-level `Ok(None)` is
turned into a `NotFound` error at the HTTP boundary via `ok_or_else`. -/
def handlers_get_memory (svc : QdrantService) (eng : Engine)
    (hasher : String → Nat) (point_id : String) (ns : Option String) :
    Except AppError MemoryResponse × List EngineCall :=
  match get_memory svc eng hasher point_id ns with
  | (.error e, calls) => (.error e, calls)
  | (.ok none, calls) =>
    (.error (.NotFound ("Memory not found: " ++ point_id)), calls)
  | (.ok (some payload), calls) => (.ok ⟨point_id, payload⟩, calls)

/-- Handler `upsert_document` (handlers.rs 485-500): the document dimension
guard checks the hard-coded constant 1024, not the configured dimension. -/
def handlers_upsert_document (svc : QdrantService) (eng : Engine)
    (hasher : String → Nat) (req : UpsertDocumentRequest) :
    Except AppError Unit × List EngineCall :=
  if req.vector.length ≠ 1024 then
    (.error (.InvalidRequest ("Vector must have exactly 1024 dimensions, got " ++
      toString req.vector.length)), [])
  else
    upsert_document svc eng hasher req.point_id req.vector req.payload

/-- Handler `search_documents` (handlers.rs 561-581): again the hard-coded
1024 guard, then the store search. -/
def handlers_search_documents (svc : QdrantService) (eng : Engine)
    (req : SearchDocumentsRequest) :
    Except AppError (List DocumentSearchResult) × List EngineCall :=
  if req.vector.length ≠ 1024 then
    (.error (.InvalidRequest ("Vector must have exactly 1024 dimensions, got " ++
      toString req.vector.length)), [])
  else
    search_documents svc eng req.vector req.user_id req.group_key req.limit
      req.min_score

/-- Loop body of handler `batch_upsert_memories` (handlers.rs 379-399): each
point is upserted individually; a failure increments the failed count and
records a `BatchError` with the point id and the error's display string. -/
def batchMemStep (svc : QdrantService) (eng : Engine) (hasher : String → Nat)
    (acc : BatchOperationResponse × List EngineCall)
    (point : UpsertMemoryRequest) : BatchOperationResponse × List EngineCall :=
  let r := upsert_memory svc eng hasher point.point_id point.vector
    point.payload point.ns
  match r.1 with
  | .ok _ =>
    (⟨acc.1.success_count + 1, acc.1.failed_count, acc.1.errors⟩, acc.2 ++ r.2)
  | .error e =>
    (⟨acc.1.success_count, acc.1.failed_count + 1,
      acc.1.errors ++ [⟨point.point_id, e.toDisplayString⟩]⟩, acc.2 ++ r.2)

/-- Handler `batch_upsert_memories` (handlers.rs 355-409): an empty batch and
a batch of more than 100 points are rejected whole before the loop; otherwise
every point is processed independently. -/
def batch_upsert_memories (svc : QdrantService) (eng : Engine)
    (hasher : String → Nat) (points : List UpsertMemoryRequest) :
    Except AppError BatchOperationResponse × List EngineCall :=
  let point_count := points.length
  if point_count = 0 then
    (.error (.InvalidRequest "Batch cannot be empty"), [])
  else if point_count > 100 then
    (.error (.InvalidRequest "Batch size exceeds maximum of 100 points"), [])
  else
    let out := points.foldl (batchMemStep svc eng hasher) (⟨0, 0, []⟩, [])
    (.ok out.1, out.2)

/-- Loop body of handler `batch_upsert_documents` (handlers.rs 526-540): a
wrong-dimension vector fails the item with a fixed message and `continue`;
otherwise the item is upserted and an engine failure is recorded with the
point id and the error's display string. -/
def batchDocStep (svc : QdrantService) (eng : Engine) (hasher : String → Nat)
    (acc : BatchUpsertResponse × List EngineCall)
    (doc : UpsertDocumentRequest) : BatchUpsertResponse × List EngineCall :=
  if doc.vector.length ≠ 1024 then
    (⟨acc.1.success_count, acc.1.failed_count + 1,
      acc.1.errors ++ ["Document " ++ doc.point_id ++ ": invalid vector dimension"]⟩,
     acc.2)
  else
    let r := upsert_document svc eng hasher doc.point_id doc.vector doc.payload
    match r.1 with
    | .ok _ =>
      (⟨acc.1.success_count + 1, acc.1.failed_count, acc.1.errors⟩, acc.2 ++ r.2)
    | .error e =>
      (⟨acc.1.success_count, acc.1.failed_count + 1,
        acc.1.errors ++ ["Document " ++ doc.point_id ++ ": " ++ e.toDisplayString]⟩,
       acc.2 ++ r.2)

/-- Handler `batch_upsert_documents` (handlers.rs 514-547): a batch of more
than 100 documents is rejected whole; otherwise every document is processed
independently (there is no empty-batch rejection on this endpoint). -/
def batch_upsert_documents (svc : QdrantService) (eng : Engine)
    (hasher : String → Nat) (documents : List UpsertDocumentRequest) :
    Except AppError BatchUpsertResponse × List EngineCall :=
  if documents.length > 100 then
    (.error (.InvalidRequest "Maximum 100 documents per batch"), [])
  else
    let out := documents.foldl (batchDocStep svc eng hasher) (⟨0, 0, []⟩, [])
    (.ok out.1, out.2)

/-- The per-document failure outcome of one `batch_upsert_documents` loop
iteration: `none` when the document succeeds, `some message` when it fails
(wrong dimension or engine error), with the message the loop records. -/
def docFailureMsg (svc : QdrantService) (eng : Engine) (hasher : String → Nat)
    (doc : UpsertDocumentRequest) : Option String :=
  if doc.vector.length ≠ 1024 then
    some ("Document " ++ doc.point_id ++ ": invalid vector dimension")
  else
    match (upsert_document svc eng hasher doc.point_id doc.vector doc.payload).1 with
    | .ok _ => none
    | .error e => some ("Document " ++ doc.point_id ++ ": " ++ e.toDisplayString)

/-- An engine whose every reply is a success with no data: used to instantiate
theorems at concrete inputs. -/
def allOkEngine : Engine :=
  ⟨.ok [], fun _ => .ok (), fun _ _ => .ok (), fun _ _ => .ok (),
   fun _ _ => .ok [], fun _ _ => .ok [], fun _ _ => .ok [], fun _ _ => .ok [],
   fun _ => .ok ()⟩

/-- A concrete hash stand-in for instantiating theorems. -/
def hasherZero : String → Nat := fun _ => 0

/-- The default service configuration (config.rs defaults: collection
`user_memories`, dimension 1024). -/
def svcDefault : QdrantService := ⟨"user_memories", "user_documents", 1024⟩

/-- A sample memory payload for concrete instantiations. -/
def memPayloadSample : MemoryPayload :=
  ⟨1, "personal", "name", "Val", "auto_detected", none, 0, 0, true⟩

/-- A sample document payload for concrete instantiations. -/
def docPayloadSample : DocumentPayload :=
  ⟨7, 42, "DEFAULT", 1, 0, 0, 10, "text", 0⟩

/-- C10: the error-to-response mapping is a total deterministic function:
NotFound maps to 404 with its message, InvalidRequest to 400 with its
message, Internal to 500 with its message, and every engine error to 500
with the fixed generic body, independent of the engine error's detail. -/
theorem C10_error_response_mapping :
    ∀ (msg detail detail2 : String),
      (AppError.NotFound msg).into_response = (404, msg) ∧
      (AppError.InvalidRequest msg).into_response = (400, msg) ∧
      (AppError.Internal msg).into_response = (500, msg) ∧
      (AppError.Qdrant detail).into_response =
        (500, "Database operation failed") ∧
      (AppError.Qdrant detail).into_response =
        (AppError.Qdrant detail2).into_response := by
  intro msg detail detail2
  exact ⟨rfl, rfl, rfl, rfl, rfl⟩

/-- C4 (amended): when the collection is already listed, both ensure
operations perform no create call and return success; but a failing
create-collection call (for example one racing a concurrent creator) is
propagated as an engine error, not swallowed. -/
theorem C4_ensure_collection_idempotent_create_error_propagates :
    (∀ (eng : Engine) (name : String) (cols : List String),
      eng.listCollectionsResult = .ok cols → name ∈ cols →
      ensure_collection_exists_for eng name = (.ok (), [.listCollections]) ∧
      ensure_collection_exists_for_documents eng name =
        (.ok (), [.listCollections])) ∧
    (∀ (eng : Engine) (name : String) (cols : List String) (e : String),
      eng.listCollectionsResult = .ok cols → name ∉ cols →
      eng.createCollectionResult name = .error e →
      (ensure_collection_exists_for eng name).1 = .error (.Qdrant e) ∧
      (ensure_collection_exists_for_documents eng name).1 =
        .error (.Qdrant e)) := by
  constructor
  · intro eng name cols hlist hmem
    have hany : cols.any (fun c => c = name) = true := by
      simp only [List.any_eq_true, decide_eq_true_eq]
      exact ⟨name, hmem, rfl⟩
    constructor
    · simp [ensure_collection_exists_for, hlist, hany]
    · simp [ensure_collection_exists_for_documents, hlist, hany]
  · intro eng name cols e hlist hmem hcreate
    have hany : cols.any (fun c => c = name) = false := by
      simp only [List.any_eq_false, decide_eq_true_eq]
      intro x hx hxe
      exact hmem (hxe ▸ hx)
    constructor
    · simp [ensure_collection_exists_for, hlist, hany, hcreate]
    · simp [ensure_collection_exists_for_documents, hlist, hany, hcreate]

/-- An engine that does not list the collection yet fails the create call
the way a lost provisioning race does. -/
def racingEngine : Engine :=
  { allOkEngine with
    listCollectionsResult := .ok []
    createCollectionResult := fun _ => .error "already exists" }

/-- C4 counterexample: with a lost-race engine the create failure is returned
as a Qdrant error, so the operation does not return success as claimed. -/
theorem C4_counterexample_create_error_not_swallowed :
    ensure_collection_exists_for racingEngine "user_memories" =
      (.error (.Qdrant "already exists"),
       [.listCollections, .createCollection "user_memories"]) ∧
    (ensure_collection_exists_for racingEngine "user_memories").1 ≠ .ok () := by
  refine ⟨rfl, ?_⟩
  rw [show (ensure_collection_exists_for racingEngine "user_memories").1 =
    .error (.Qdrant "already exists") from rfl]
  intro hc
  exact Except.noConfusion hc

/-- An engine that already lists the default memories collection. -/
def existingCollectionEngine : Engine :=
  { allOkEngine with listCollectionsResult := .ok ["user_memories"] }

/-- C4 witness: the amended theorem applied at a concrete engine that lists
the collection, and at the lost-race engine. -/
theorem C4_witness_concrete :
    (ensure_collection_exists_for existingCollectionEngine "user_memories" =
      (.ok (), [.listCollections]) ∧
     ensure_collection_exists_for_documents existingCollectionEngine
       "user_memories" = (.ok (), [.listCollections])) ∧
    (ensure_collection_exists_for racingEngine "user_memories").1 =
      .error (.Qdrant "already exists") := by
  constructor
  · exact C4_ensure_collection_idempotent_create_error_propagates.1
      existingCollectionEngine "user_memories" ["user_memories"] rfl
      (by decide)
  · exact (C4_ensure_collection_idempotent_create_error_propagates.2
      racingEngine "user_memories" [] "already exists" rfl (by decide) rfl).1

/-- C9: an empty memory batch is rejected with InvalidRequest "Batch cannot
be empty" before any engine call, and a batch of more than 100 points is
rejected whole with InvalidRequest before any engine call. -/
theorem C9_batch_memory_size_guards :
    ∀ (svc : QdrantService) (eng : Engine) (hasher : String → Nat),
      batch_upsert_memories svc eng hasher [] =
        (.error (.InvalidRequest "Batch cannot be empty"), []) ∧
      ∀ (points : List UpsertMemoryRequest), points.length > 100 →
        batch_upsert_memories svc eng hasher points =
          (.error (.InvalidRequest "Batch size exceeds maximum of 100 points"),
           []) := by
  intro svc eng hasher
  constructor
  · simp [batch_upsert_memories]
  · intro points h
    simp only [batch_upsert_memories]
    rw [if_neg (by omega), if_pos h]

/-- A sample upsert-memory request (empty vector). -/
def memReqSample : UpsertMemoryRequest := ⟨"mem_1_a", [], memPayloadSample, none⟩

/-- C9 witness: the guards applied at the empty batch and at a concrete batch
of 101 points. -/
theorem C9_witness_concrete :
    batch_upsert_memories svcDefault allOkEngine hasherZero [] =
      (.error (.InvalidRequest "Batch cannot be empty"), []) ∧
    batch_upsert_memories svcDefault allOkEngine hasherZero
      (List.replicate 101 memReqSample) =
      (.error (.InvalidRequest "Batch size exceeds maximum of 100 points"),
       []) := by
  constructor
  · exact (C9_batch_memory_size_guards svcDefault allOkEngine hasherZero).1
  · exact (C9_batch_memory_size_guards svcDefault allOkEngine hasherZero).2
      (List.replicate 101 memReqSample)
      (by rw [List.length_replicate]; omega)

/-- C8: memory get issues exactly one engine fetch, keyed by the mapped
native id on the resolved collection; when the engine returns zero points the
store yields `Ok(None)` (not an engine error), the HTTP handler turns that
into a NotFound error, and NotFound maps to status 404. -/
theorem C8_get_memory_zero_points_not_found :
    ∀ (svc : QdrantService) (eng : Engine) (hasher : String → Nat)
      (pid : String) (ns : Option String),
      (get_memory svc eng hasher pid ns).2 =
        [EngineCall.getPoints (get_collection_name svc ns) [hasher pid]] ∧
      (eng.getPointsResult (get_collection_name svc ns) (hasher pid) = .ok [] →
        (get_memory svc eng hasher pid ns).1 = .ok none ∧
        (handlers_get_memory svc eng hasher pid ns).1 =
          .error (.NotFound ("Memory not found: " ++ pid)) ∧
        (AppError.NotFound ("Memory not found: " ++ pid)).into_response =
          (404, "Memory not found: " ++ pid)) := by
  intro svc eng hasher pid ns
  constructor
  · cases h : eng.getPointsResult (get_collection_name svc ns) (hasher pid) with
    | error e => simp [get_memory, h]
    | ok result => cases result <;> simp [get_memory, h]
  · intro h
    refine ⟨by simp [get_memory, h], ?_, rfl⟩
    simp [handlers_get_memory, get_memory, h]

/-- An engine whose point fetches return zero points. -/
def emptyGetEngine : Engine :=
  { allOkEngine with getPointsResult := fun _ _ => .ok [] }

/-- C8 witness: the theorem applied at a concrete id against the zero-point
engine. -/
theorem C8_witness_concrete :
    (get_memory svcDefault emptyGetEngine hasherZero "mem_1_a" none).1 =
      .ok none ∧
    (handlers_get_memory svcDefault emptyGetEngine hasherZero "mem_1_a"
      none).1 = .error (.NotFound "Memory not found: mem_1_a") := by
  have h := (C8_get_memory_zero_points_not_found svcDefault emptyGetEngine
    hasherZero "mem_1_a" none).2 rfl
  exact ⟨h.1, h.2.1⟩

/-- The conjunctive must-filter that both `search_memories` and
`scroll_memories` construct: owner match, `active == true`, and, when a
category is given, category match. -/
def memoriesFilterConjunction (user_id : Int) (category : Option String) :
    List Condition :=
  [Condition.matchesInt "user_id" user_id,
   Condition.matchesBool "active" true] ++
  (match category with
   | some cat => [Condition.matchesText "category" cat]
   | none => [])

/-- Semantic reading of the memories must-filter: a stored payload satisfies
it exactly when its owner is the requested one, it is active, and it carries
the requested category when one was given. -/
theorem memoryFilterHolds_conjunction_iff (u : Int) (cat : Option String)
    (pay : MemoryPayload) (reserved : Option String) :
    memoryFilterHolds pay reserved (memoriesFilterConjunction u cat) = true ↔
      (pay.user_id = u ∧ pay.active = true ∧
        ∀ c, cat = some c → pay.category = c) := by
  cases cat with
  | none =>
    simp [memoryFilterHolds, memoriesFilterConjunction, conditionHolds,
      memoryPayloadField, Condition.matchesInt, Condition.matchesBool]
  | some c =>
    simp [memoryFilterHolds, memoriesFilterConjunction, conditionHolds,
      memoryPayloadField, Condition.matchesInt, Condition.matchesBool,
      Condition.matchesText, and_assoc]


/-- The constructed must-conditions are exactly the conjunction list. -/
theorem memoriesMustConditions_eq_conjunction (u : Int) (cat : Option String) :
    memoriesMustConditions u cat = memoriesFilterConjunction u cat := by
  cases cat <;> rfl

/-- C1: the filter that memory search and memory scroll send to the engine is
exactly the conjunction owner-match AND active-true AND (when given)
category-match; that conjunction holds of a stored payload iff the payload
has the requested owner, is active, and carries the requested category; and
consequently, against an engine that honours the filter on the returned
points, every returned record has the requested owner, is active, and has the
requested category when one was given. -/
theorem C1_memory_filter_conjunction :
    ∀ (u : Int) (cat : Option String) (svc : QdrantService) (eng : Engine)
      (qv : List Float) (limit : Nat) (minScore : Float) (ns : Option String),
      (∀ (pay : MemoryPayload) (reserved : Option String),
        memoryFilterHolds pay reserved (memoriesFilterConjunction u cat) = true ↔
          (pay.user_id = u ∧ pay.active = true ∧
            ∀ c, cat = some c → pay.category = c)) ∧
      (qv.length = svc.vector_dimension →
        (search_memories svc eng qv u cat limit minScore ns).2 =
          [EngineCall.searchPoints (get_collection_name svc ns)
            (memoriesFilterConjunction u cat) limit]) ∧
      ((scroll_memories svc eng u cat limit ns).2 =
        [EngineCall.scrollPoints (get_collection_name svc ns)
          (memoriesFilterConjunction u cat) limit]) ∧
      (∀ (pts : List ScoredMemoryPoint),
        eng.searchMemoryResult (get_collection_name svc ns)
          (memoriesFilterConjunction u cat) = .ok pts →
        (∀ sp ∈ pts, memoryFilterHolds sp.payload sp.reservedPointId
          (memoriesFilterConjunction u cat) = true) →
        qv.length = svc.vector_dimension →
        ∀ out, (search_memories svc eng qv u cat limit minScore ns).1 = .ok out →
          ∀ r ∈ out, r.2.2.user_id = u ∧ r.2.2.active = true ∧
            ∀ c, cat = some c → r.2.2.category = c) ∧
      (∀ (pts : List MemoryPoint),
        eng.scrollMemoryResult (get_collection_name svc ns)
          (memoriesFilterConjunction u cat) = .ok pts →
        (∀ p ∈ pts, memoryFilterHolds p.payload p.reservedPointId
          (memoriesFilterConjunction u cat) = true) →
        ∀ out, (scroll_memories svc eng u cat limit ns).1 = .ok out →
          ∀ r ∈ out, r.2.user_id = u ∧ r.2.active = true ∧
            ∀ c, cat = some c → r.2.category = c) := by
  intro u cat svc eng qv limit minScore ns
  have hc := memoriesMustConditions_eq_conjunction u cat
  refine ⟨memoryFilterHolds_conjunction_iff u cat, ?_, ?_, ?_, ?_⟩
  · intro hdim
    simp only [search_memories, hc]
    rw [if_neg (by omega)]
    cases eng.searchMemoryResult (get_collection_name svc ns)
      (memoriesFilterConjunction u cat) <;> rfl
  · simp only [scroll_memories, hc]
    cases eng.scrollMemoryResult (get_collection_name svc ns)
      (memoriesFilterConjunction u cat) <;> rfl
  · intro pts hok hall hdim out hout r hr
    simp only [search_memories, hc] at hout
    rw [if_neg (by omega), hok] at hout
    simp only [Except.ok.injEq] at hout
    subst hout
    obtain ⟨sp, hsp, rfl⟩ := List.mem_map.mp hr
    exact (memoryFilterHolds_conjunction_iff u cat sp.payload
      sp.reservedPointId).mp (hall sp hsp)
  · intro pts hok hall out hout r hr
    simp only [scroll_memories, hc] at hout
    rw [hok] at hout
    simp only [Except.ok.injEq] at hout
    subst hout
    obtain ⟨p, hp, rfl⟩ := List.mem_map.mp hr
    exact (memoryFilterHolds_conjunction_iff u cat p.payload
      p.reservedPointId).mp (hall p hp)

/-- A small-dimension service configuration for concrete instantiations. -/
def svcSmall : QdrantService := ⟨"user_memories", "user_documents", 3⟩

/-- A concrete scored memory point matching owner 1, category "personal". -/
def memPointSample : ScoredMemoryPoint :=
  ⟨some (.Num 5), 0.9, memPayloadSample, some "mem_1_a"⟩

/-- An engine whose memory searches return the single sample point. -/
def memSearchEngine : Engine :=
  { allOkEngine with searchMemoryResult := fun _ _ => .ok [memPointSample] }

/-- C1 witness: the theorem applied at owner 1, category "personal", a
3-dimensional query vector and an engine returning one matching point. -/
theorem C1_witness_concrete :
    (search_memories svcSmall memSearchEngine (List.replicate 3 (0.0 : Float)) 1
      (some "personal") 5 0.5 none).2 =
      [EngineCall.searchPoints (get_collection_name svcSmall none)
        (memoriesFilterConjunction 1 (some "personal")) 5] ∧
    (memPayloadSample.user_id = 1 ∧ memPayloadSample.active = true ∧
      memPayloadSample.category = "personal") := by
  have h := C1_memory_filter_conjunction 1 (some "personal") svcSmall
    memSearchEngine (List.replicate 3 (0.0 : Float)) 5 0.5 none
  refine ⟨h.2.1 rfl, ?_⟩
  have h4 := h.2.2.2.1 [memPointSample] rfl (by decide) rfl
    [("mem_1_a", 0.9, memPayloadSample)] rfl
  have h5 := h4 ("mem_1_a", 0.9, memPayloadSample) (List.mem_singleton_self _)
  exact ⟨h5.1, h5.2.1, h5.2.2 "personal" rfl⟩

/-- A character the sanitizer may emit: underscore, ASCII lowercase letter,
or ASCII digit (the class `[a-z0-9_]`). -/
def goodSanitizedChar (c : Char) : Prop :=
  c = '_' ∨ (97 ≤ c.toNat ∧ c.toNat ≤ 122) ∨ (48 ≤ c.toNat ∧ c.toNat ≤ 57)

/-- Evaluating `Char.ofNat` at a lowercase-letter code point. -/
theorem charOfNat_toNat (n : Nat) (h1 : 97 ≤ n) (h2 : n ≤ 122) :
    (Char.ofNat n).toNat = n := by
  have hv : n.isValidChar := Or.inl (by omega)
  simp [Char.ofNat, hv, Char.ofNatAux, Char.toNat, UInt32.toNat,
    BitVec.toNat_ofNatLt]

/-- Lower-casing an ASCII alphanumeric character lands in `[a-z0-9]`. -/
theorem toAsciiLowercase_good (c : Char)
    (h : isAsciiAlphanumeric c = true) :
    goodSanitizedChar (toAsciiLowercase c) := by
  simp only [isAsciiAlphanumeric, Bool.or_eq_true, Bool.and_eq_true,
    decide_eq_true_eq] at h
  rcases h with (h | h) | h
  · have hcond : ¬((65 ≤ c.toNat && c.toNat ≤ 90) = true) := by
      simp only [Bool.and_eq_true, decide_eq_true_eq]
      omega
    rw [toAsciiLowercase, if_neg hcond]
    exact Or.inr (Or.inr h)
  · have hcond : (65 ≤ c.toNat && c.toNat ≤ 90) = true := by
      simp only [Bool.and_eq_true, decide_eq_true_eq]
      omega
    rw [toAsciiLowercase, if_pos hcond]
    refine Or.inr (Or.inl ?_)
    rw [charOfNat_toNat (c.toNat + 32) (by omega) (by omega)]
    omega
  · have hcond : ¬((65 ≤ c.toNat && c.toNat ≤ 90) = true) := by
      simp only [Bool.and_eq_true, decide_eq_true_eq]
      omega
    rw [toAsciiLowercase, if_neg hcond]
    exact Or.inr (Or.inl h)

/-- Every character the sanitizer loop accumulates is in `[a-z0-9_]`. -/
theorem mem_foldl_sanitizePush_good :
    ∀ (l : List Char) (acc : List Char),
      (∀ c ∈ acc, goodSanitizedChar c) →
      ∀ c ∈ l.foldl sanitizePush acc, goodSanitizedChar c := by
  intro l
  induction l with
  | nil => intro acc hacc c hc; exact hacc c hc
  | cons ch t ih =>
    intro acc hacc c hc
    refine ih (sanitizePush acc ch) ?_ c hc
    intro d hd
    by_cases h1 : isAsciiAlphanumeric ch = true
    · rw [sanitizePush, if_pos h1] at hd
      rcases List.mem_append.mp hd with hd | hd
      · exact hacc d hd
      · rw [List.mem_singleton.mp hd]
        exact toAsciiLowercase_good ch h1
    · rw [sanitizePush, if_neg h1] at hd
      by_cases h2 : (ch == '-' || ch == '_') = true
      · rw [if_pos h2] at hd
        rcases List.mem_append.mp hd with hd | hd
        · exact hacc d hd
        · rw [List.mem_singleton.mp hd]
          exact Or.inl rfl
      · rw [if_neg h2] at hd
        exact hacc d hd

/-- Trimming underscores only removes characters. -/
theorem mem_of_mem_trimMatchesUnderscore (c : Char) (l : List Char)
    (h : c ∈ trimMatchesUnderscore l) : c ∈ l := by
  rw [trimMatchesUnderscore, List.mem_reverse] at h
  have h2 : c ∈ (l.dropWhile (fun c => c == '_')).reverse :=
    (List.dropWhile_sublist _).subset h
  rw [List.mem_reverse] at h2
  exact (List.dropWhile_sublist _).subset h2

/-- The head surviving a `dropWhile` does not satisfy the predicate. -/
theorem head_of_dropWhile_eq_some {α : Type} (p : α → Bool) :
    ∀ (l : List α) (x : α), (l.dropWhile p).head? = some x → p x = false := by
  intro l
  induction l with
  | nil => intro x h; simp [List.dropWhile] at h
  | cons a t ih =>
    intro x h
    by_cases hp : p a
    · rw [List.dropWhile_cons_of_pos hp] at h
      exact ih x h
    · rw [List.dropWhile_cons_of_neg hp] at h
      simp only [List.head?_cons, Option.some.injEq] at h
      subst h
      simpa using hp

/-- Removing a trailing run (reverse, dropWhile, reverse) preserves the head
when one survives. -/
theorem head_of_reverse_dropWhile_reverse {α : Type} (p : α → Bool) :
    ∀ (q : List α) (x : α),
      ((q.reverse.dropWhile p).reverse).head? = some x → q.head? = some x := by
  intro q
  induction q using List.reverseRecOn with
  | nil => intro x h; simp at h
  | append_singleton l a ih =>
    intro x h
    rw [List.reverse_append, List.reverse_singleton] at h
    by_cases hp : p a
    · rw [List.singleton_append, List.dropWhile_cons_of_pos hp] at h
      have h2 := ih x h
      cases l with
      | nil => simp at h2
      | cons b t => simpa using h2
    · rw [List.singleton_append, List.dropWhile_cons_of_neg hp] at h
      rw [List.reverse_cons, List.reverse_reverse] at h
      exact h

/-- The per-character action of the sanitizer loop, as a partial map: keep
ASCII alphanumerics lower-cased, turn dash and underscore into underscore,
drop everything else. -/
def sanitizeMapChar (ch : Char) : Option Char :=
  if isAsciiAlphanumeric ch then some (toAsciiLowercase ch)
  else if ch == '-' || ch == '_' then some '_'
  else none

/-- The sanitizer loop accumulates exactly the per-character partial map. -/
theorem foldl_sanitizePush_eq_filterMap :
    ∀ (l : List Char) (acc : List Char),
      l.foldl sanitizePush acc = acc ++ l.filterMap sanitizeMapChar := by
  intro l
  induction l with
  | nil => intro acc; simp
  | cons ch t ih =>
    intro acc
    have hstep : sanitizePush acc ch = acc ++ (sanitizeMapChar ch).toList := by
      by_cases h1 : isAsciiAlphanumeric ch = true
      · rw [sanitizePush, if_pos h1, sanitizeMapChar, if_pos h1]
        rfl
      · by_cases h2 : (ch == '-' || ch == '_') = true
        · rw [sanitizePush, if_neg h1, if_pos h2, sanitizeMapChar, if_neg h1,
            if_pos h2]
          rfl
        · rw [sanitizePush, if_neg h1, if_neg h2, sanitizeMapChar, if_neg h1,
            if_neg h2]
          simp
    rw [List.foldl_cons, ih (sanitizePush acc ch), hstep]
    cases hm : sanitizeMapChar ch <;> simp [List.filterMap_cons, hm]

/-- C3 (amended): sanitization lower-cases ASCII alphanumerics, maps dash and
underscore to underscore, drops every other character (rather than replacing
it by underscore), and trims leading and trailing underscores; hence the
result contains only `[a-z0-9_]` with no leading or trailing underscore; an
empty result is treated as no namespace, so the bare logical collection name
is used; and sanitize("Feedback-False_Positive") equals
"feedback_false_positive". -/
theorem C3_sanitize_amended :
    ∀ (value : String) (svc : QdrantService),
      sanitize_namespace value =
        String.mk (trimMatchesUnderscore (value.data.filterMap sanitizeMapChar)) ∧
      (∀ c ∈ (sanitize_namespace value).data, goodSanitizedChar c) ∧
      (∀ c, (sanitize_namespace value).data.head? = some c → c ≠ '_') ∧
      (∀ c, (sanitize_namespace value).data.getLast? = some c → c ≠ '_') ∧
      (sanitize_namespace value = "" →
        get_collection_name svc (some value) = svc.collection_name) ∧
      sanitize_namespace "Feedback-False_Positive" =
        "feedback_false_positive" := by
  intro value svc
  refine ⟨?_, ?_, ?_, ?_, ?_, by decide⟩
  · rw [sanitize_namespace, foldl_sanitizePush_eq_filterMap, List.nil_append]
  · intro c hc
    have h1 : c ∈ trimMatchesUnderscore (value.data.foldl sanitizePush []) := hc
    have h2 := mem_of_mem_trimMatchesUnderscore c _ h1
    exact mem_foldl_sanitizePush_good value.data [] (by intro d hd; cases hd) c h2
  · intro c hc
    have h1 : (trimMatchesUnderscore (value.data.foldl sanitizePush [])).head? =
        some c := hc
    rw [trimMatchesUnderscore] at h1
    have h2 := head_of_reverse_dropWhile_reverse (fun c => c == '_') _ c h1
    have h3 := head_of_dropWhile_eq_some (fun c => c == '_') _ c h2
    simpa using h3
  · intro c hc
    have h1 : (trimMatchesUnderscore (value.data.foldl sanitizePush [])).getLast? =
        some c := hc
    rw [trimMatchesUnderscore, List.getLast?_reverse] at h1
    have h3 := head_of_dropWhile_eq_some (fun c => c == '_') _ c h1
    simpa using h3
  · intro h
    simp only [get_collection_name, Option.bind_eq_bind, Option.some_bind, h]
    rfl

/-- Sanitization as the claim words it, for comparison: lower-case, map every
non-alphanumeric character to underscore, trim leading and trailing
underscores. -/
def sanitizeClaimWording (value : String) : String :=
  let mapped := value.data.map (fun ch =>
    if isAsciiAlphanumeric ch then toAsciiLowercase ch else '_')
  String.mk (trimMatchesUnderscore mapped)

/-- C3 counterexample: on "a.b" the code drops the dot and returns "ab",
whereas turning every non-alphanumeric character into underscore as the claim
states would give "a_b". -/
theorem C3_counterexample_dot_dropped :
    sanitize_namespace "a.b" = "ab" ∧
    sanitizeClaimWording "a.b" = "a_b" ∧
    sanitize_namespace "a.b" ≠ sanitizeClaimWording "a.b" := by
  refine ⟨by decide, by decide, by decide⟩

/-- C3 witness: the amended theorem applied at the spec's example string and
at a namespace that sanitizes to empty. -/
theorem C3_witness_concrete :
    sanitize_namespace "Feedback-False_Positive" = "feedback_false_positive" ∧
    get_collection_name svcDefault (some "---") =
      svcDefault.collection_name := by
  constructor
  · exact (C3_sanitize_amended "Feedback-False_Positive" svcDefault).2.2.2.2.2
  · exact (C3_sanitize_amended "---" svcDefault).2.2.2.2.1 (by decide)

/-- C2 (amended): the memory write and search operations validate vector
length against the configured dimension and return InvalidRequest with no
engine call on a mismatch; the document write and search operations instead
validate against the hard-coded constant 1024 (which equals the configured
dimension only in the default configuration), returning InvalidRequest with
no engine call when the length is not 1024. -/
theorem C2_dimension_guards :
    (∀ (svc : QdrantService) (eng : Engine) (hasher : String → Nat)
      (pid : String) (v : List Float) (pay : MemoryPayload) (ns : Option String),
      v.length ≠ svc.vector_dimension →
      upsert_memory svc eng hasher pid v pay ns =
        (.error (.InvalidRequest ("Vector dimension mismatch: expected " ++
          toString svc.vector_dimension ++ ", got " ++ toString v.length)),
         [])) ∧
    (∀ (svc : QdrantService) (eng : Engine) (qv : List Float) (u : Int)
      (cat : Option String) (limit : Nat) (minScore : Float) (ns : Option String),
      qv.length ≠ svc.vector_dimension →
      search_memories svc eng qv u cat limit minScore ns =
        (.error (.InvalidRequest ("Query vector dimension mismatch: expected " ++
          toString svc.vector_dimension ++ ", got " ++ toString qv.length)),
         [])) ∧
    (∀ (svc : QdrantService) (eng : Engine) (hasher : String → Nat)
      (req : UpsertDocumentRequest),
      req.vector.length ≠ 1024 →
      handlers_upsert_document svc eng hasher req =
        (.error (.InvalidRequest ("Vector must have exactly 1024 dimensions, got " ++
          toString req.vector.length)), [])) ∧
    (∀ (svc : QdrantService) (eng : Engine) (req : SearchDocumentsRequest),
      req.vector.length ≠ 1024 →
      handlers_search_documents svc eng req =
        (.error (.InvalidRequest ("Vector must have exactly 1024 dimensions, got " ++
          toString req.vector.length)), [])) := by
  refine ⟨?_, ?_, ?_, ?_⟩
  · intro svc eng hasher pid v pay ns h
    simp only [upsert_memory]
    rw [if_pos h]
  · intro svc eng qv u cat limit minScore ns h
    simp only [search_memories]
    rw [if_pos h]
  · intro svc eng hasher req h
    simp only [handlers_upsert_document]
    rw [if_pos h]
  · intro svc eng req h
    simp only [handlers_search_documents]
    rw [if_pos h]

/-- A service configured for dimension 512 (QDRANT_VECTOR_DIMENSION=512 is a
legal configuration, exercised by the config tests). -/
def svc512 : QdrantService := ⟨"user_memories", "user_documents", 512⟩

/-- A document upsert request carrying a 1024-dimension vector. -/
def docReq1024 : UpsertDocumentRequest :=
  ⟨"doc_1", List.replicate 1024 (0.0 : Float), docPayloadSample⟩

/-- C2 counterexample: under a configured dimension of 512, a document upsert
with a 1024-length vector (which differs from the configured dimension) is
not rejected: it succeeds and issues an engine call. -/
theorem C2_counterexample_document_guard_ignores_config :
    docReq1024.vector.length ≠ svc512.vector_dimension ∧
    (handlers_upsert_document svc512 allOkEngine hasherZero docReq1024).1 =
      .ok () ∧
    (handlers_upsert_document svc512 allOkEngine hasherZero docReq1024).2 ≠
      [] := by
  have hlen : docReq1024.vector.length = 1024 := by
    show (List.replicate 1024 (0.0 : Float)).length = 1024
    rw [List.length_replicate]
  refine ⟨?_, ?_, ?_⟩
  · rw [hlen]
    show (1024 : Nat) ≠ 512
    omega
  · simp only [handlers_upsert_document, hlen]
    rw [if_neg (by omega)]
    rfl
  · simp only [handlers_upsert_document, hlen]
    rw [if_neg (by omega)]
    simp [upsert_document, allOkEngine]

/-- C2 witness: the amended guards applied at empty vectors against the
default configuration; no engine call is recorded. -/
theorem C2_witness_concrete :
    upsert_memory svcDefault allOkEngine hasherZero "mem_1_a" [] memPayloadSample
      none =
      (.error (.InvalidRequest ("Vector dimension mismatch: expected " ++
        toString svcDefault.vector_dimension ++ ", got " ++
        toString (List.length ([] : List Float)))), []) ∧
    handlers_search_documents svcDefault allOkEngine
      ⟨[], 7, none, 5, 0.5⟩ =
      (.error (.InvalidRequest ("Vector must have exactly 1024 dimensions, got " ++
        toString (List.length ([] : List Float)))), []) := by
  constructor
  · exact C2_dimension_guards.1 svcDefault allOkEngine hasherZero "mem_1_a" []
      memPayloadSample none (by decide)
  · exact C2_dimension_guards.2.2.2 svcDefault allOkEngine ⟨[], 7, none, 5, 0.5⟩
      (by decide)

/-- C5 (amended): on memory search and memory scroll, a point whose payload
lacks the reserved `_point_id` entry gets its identifier from the fallback,
which renders a numeric native id as a decimal string, and the operation
still succeeds; on document search the fallback is instead the empty string
(`unwrap_or("")`), also non-fatal. -/
theorem C5_reserved_id_fallback :
    (∀ n : Nat, memoryPointIdOrNumeric none (some (.Num n)) = toString n) ∧
    (∀ (svc : QdrantService) (eng : Engine) (qv : List Float) (u : Int)
      (cat : Option String) (limit : Nat) (minScore : Float) (ns : Option String)
      (pts : List ScoredMemoryPoint),
      qv.length = svc.vector_dimension →
      eng.searchMemoryResult (get_collection_name svc ns)
        (memoriesMustConditions u cat) = .ok pts →
      (search_memories svc eng qv u cat limit minScore ns).1 =
        .ok (pts.map (fun sp =>
          (memoryPointIdOrNumeric sp.reservedPointId sp.id, sp.score,
            sp.payload)))) ∧
    (∀ (svc : QdrantService) (eng : Engine) (u : Int) (cat : Option String)
      (limit : Nat) (ns : Option String) (pts : List MemoryPoint),
      eng.scrollMemoryResult (get_collection_name svc ns)
        (memoriesMustConditions u cat) = .ok pts →
      (scroll_memories svc eng u cat limit ns).1 =
        .ok (pts.map (fun p =>
          (memoryPointIdOrNumeric p.reservedPointId p.id, p.payload)))) ∧
    (∀ (svc : QdrantService) (eng : Engine) (qv : List Float) (u : Int)
      (gk : Option String) (limit : Nat) (minScore : Float)
      (pts : List ScoredDocumentPoint),
      eng.searchDocumentResult svc.documents_collection_name
        (documentsMustConditions u gk) = .ok pts →
      (search_documents svc eng qv u gk limit minScore).1 =
        .ok (pts.map (fun p =>
          ⟨p.reservedPointId.getD "", p.score, p.payload,
            (none : Option (List Float))⟩))) ∧
    ((none : Option String).getD "" = "") := by
  refine ⟨fun n => rfl, ?_, ?_, ?_, rfl⟩
  · intro svc eng qv u cat limit minScore ns pts hdim hok
    simp only [search_memories]
    rw [if_neg (by omega), hok]
  · intro svc eng u cat limit ns pts hok
    simp only [scroll_memories]
    rw [hok]
  · intro svc eng qv u gk limit minScore pts hok
    simp only [search_documents]
    rw [hok]

/-- A scored document point stored without the reserved `_point_id` entry,
under native numeric id 42. -/
def docPointNum42 : ScoredDocumentPoint :=
  ⟨some (.Num 42), 0.5, docPayloadSample, none⟩

/-- An engine whose document searches return the id-42 point. -/
def docSearchEngineNum42 : Engine :=
  { allOkEngine with searchDocumentResult := fun _ _ => .ok [docPointNum42] }

/-- Projection of a document search outcome to the list of returned ids. -/
def docResultIds (r : Except AppError (List DocumentSearchResult)) :
    List String :=
  match r with
  | .ok rs => rs.map (fun d => d.id)
  | .error _ => []

/-- Success test for an `Except` outcome. -/
def exceptIsOk {ε α : Type} : Except ε α → Bool
  | .ok _ => true
  | .error _ => false

/-- C5 counterexample: a document search over a stored point that lacks the
reserved `_point_id` entry and has native numeric id 42 succeeds but returns
the empty-string identifier, not the decimal rendering "42". -/
theorem C5_counterexample_document_search_empty_id :
    exceptIsOk
      (search_documents svcDefault docSearchEngineNum42 [] 7 none 5 0.5).1 =
      true ∧
    docResultIds
      (search_documents svcDefault docSearchEngineNum42 [] 7 none 5 0.5).1 =
      [""] ∧
    ("" : String) ≠ toString (42 : Nat) := by
  refine ⟨rfl, rfl, by decide⟩

/-- A memory point stored without the reserved `_point_id` entry, under
native numeric id 7. -/
def memPointNoReserved : MemoryPoint := ⟨some (.Num 7), memPayloadSample, none⟩

/-- An engine whose memory scrolls return the reserved-less id-7 point. -/
def memScrollEngineNum7 : Engine :=
  { allOkEngine with scrollMemoryResult := fun _ _ => .ok [memPointNoReserved] }

/-- C5 witness: the amended theorem applied at a concrete scroll over a
reserved-less point with numeric id 7; the returned identifier is "7". -/
theorem C5_witness_concrete :
    (scroll_memories svcDefault memScrollEngineNum7 1 none 100 none).1 =
      .ok ([memPointNoReserved].map (fun p =>
        (memoryPointIdOrNumeric p.reservedPointId p.id, p.payload))) ∧
    memoryPointIdOrNumeric memPointNoReserved.reservedPointId
      memPointNoReserved.id = "7" := by
  constructor
  · exact C5_reserved_id_fallback.2.2.1 svcDefault memScrollEngineNum7 1 none
      100 none [memPointNoReserved] rfl
  · rfl

/-- C6 (amended): reassigning a group key issues exactly one engine call, a
filtered `set_payload` on the documents collection whose filter matches owner
and file and whose patch carries only the `group_key` entry (no point upsert,
no delete); but on success it returns the constant 1, not the number of
chunks actually updated. -/
theorem C6_update_group_key_set_payload_constant_one :
    ∀ (svc : QdrantService) (eng : Engine) (u f : Int) (gk : String),
      (update_document_group_key svc eng u f gk).2 =
        [EngineCall.setPayload svc.documents_collection_name
          [Condition.matchesInt "user_id" u, Condition.matchesInt "file_id" f]
          [("group_key", FieldValue.text gk)]] ∧
      (eng.setPayloadResult svc.documents_collection_name = .ok () →
        (update_document_group_key svc eng u f gk).1 = .ok 1) ∧
      (∀ e, eng.setPayloadResult svc.documents_collection_name = .error e →
        (update_document_group_key svc eng u f gk).1 =
          .error (.Qdrant e)) := by
  intro svc eng u f gk
  refine ⟨?_, ?_, ?_⟩
  · simp only [update_document_group_key]
    cases eng.setPayloadResult svc.documents_collection_name <;> rfl
  · intro h
    simp only [update_document_group_key]
    rw [h]
  · intro e h
    simp only [update_document_group_key]
    rw [h]

/-- The number of stored document chunks matching an owner and file. -/
def countMatchingDocs (docs : List DocumentPayload) (user_id file_id : Int) :
    Nat :=
  (docs.filter (fun d => d.user_id == user_id && d.file_id == file_id)).length

/-- C6 counterexample: against an engine whose document store holds no chunk
at all (so zero chunks match owner 7, file 42, and the trivial set_payload
succeeds), the operation still returns 1, not the number of chunks updated. -/
theorem C6_counterexample_returns_one_for_zero_updates :
    (update_document_group_key svcDefault allOkEngine 7 42 "NEWGROUP").1 =
      .ok 1 ∧
    countMatchingDocs [] 7 42 = 0 ∧
    (update_document_group_key svcDefault allOkEngine 7 42 "NEWGROUP").1 ≠
      .ok (countMatchingDocs [] 7 42) := by
  refine ⟨rfl, rfl, ?_⟩
  rw [show (update_document_group_key svcDefault allOkEngine 7 42
    "NEWGROUP").1 = .ok 1 from rfl]
  rw [show countMatchingDocs [] 7 42 = 0 from rfl]
  intro hc
  have h2 := Except.ok.inj hc
  omega

/-- C6 witness: the amended theorem applied at concrete arguments against the
all-success engine. -/
theorem C6_witness_concrete :
    (update_document_group_key svcDefault allOkEngine 7 42 "NEWGROUP").2 =
      [EngineCall.setPayload svcDefault.documents_collection_name
        [Condition.matchesInt "user_id" 7, Condition.matchesInt "file_id" 42]
        [("group_key", FieldValue.text "NEWGROUP")]] ∧
    (update_document_group_key svcDefault allOkEngine 7 42 "NEWGROUP").1 =
      .ok 1 := by
  have h := C6_update_group_key_set_payload_constant_one svcDefault allOkEngine
    7 42 "NEWGROUP"
  exact ⟨h.1, h.2.1 rfl⟩

/-- Splitting a list by whether a partial map fails or succeeds covers it. -/
theorem length_filter_isNone_add_isSome {α β : Type} (f : α → Option β) :
    ∀ l : List α,
      (l.filter (fun a => (f a).isNone)).length +
        (l.filter (fun a => (f a).isSome)).length = l.length := by
  intro l
  induction l with
  | nil => simp
  | cons a t ih =>
    cases hf : f a <;> simp [List.filter_cons, hf] <;> omega

/-- A `filterMap` yields one element per input on which the map succeeds. -/
theorem length_filterMap_eq_length_filter_isSome {α β : Type} (f : α → Option β) :
    ∀ l : List α,
      (l.filterMap f).length =
        (l.filter (fun a => (f a).isSome)).length := by
  intro l
  induction l with
  | nil => simp
  | cons a t ih =>
    cases hf : f a <;> simp [List.filterMap_cons, List.filter_cons, hf, ih]


/-- Characterization of the document batch loop: starting from any
accumulator, the loop adds one success per document whose failure message is
`none`, one failure per document whose failure message is `some`, and appends
exactly the failure messages, in order. -/
theorem foldl_batchDocStep_characterization (svc : QdrantService) (eng : Engine)
    (hasher : String → Nat) :
    ∀ (docs : List UpsertDocumentRequest)
      (acc : BatchUpsertResponse × List EngineCall),
      ((docs.foldl (batchDocStep svc eng hasher) acc).1.success_count =
        acc.1.success_count +
          (docs.filter (fun d =>
            (docFailureMsg svc eng hasher d).isNone)).length) ∧
      ((docs.foldl (batchDocStep svc eng hasher) acc).1.failed_count =
        acc.1.failed_count +
          (docs.filter (fun d =>
            (docFailureMsg svc eng hasher d).isSome)).length) ∧
      ((docs.foldl (batchDocStep svc eng hasher) acc).1.errors =
        acc.1.errors ++ docs.filterMap (docFailureMsg svc eng hasher)) := by
  intro docs
  induction docs with
  | nil => intro acc; simp
  | cons d t ih =>
    intro acc
    rw [List.foldl_cons]
    obtain ⟨ihs, ihf, ihe⟩ := ih (batchDocStep svc eng hasher acc d)
    by_cases h1 : d.vector.length ≠ 1024
    · have hstep : batchDocStep svc eng hasher acc d =
          (⟨acc.1.success_count, acc.1.failed_count + 1,
            acc.1.errors ++
              ["Document " ++ d.point_id ++ ": invalid vector dimension"]⟩,
           acc.2) := by
        simp only [batchDocStep]
        rw [if_pos h1]
      have hmsg : docFailureMsg svc eng hasher d =
          some ("Document " ++ d.point_id ++ ": invalid vector dimension") := by
        simp only [docFailureMsg]
        rw [if_pos h1]
      refine ⟨?_, ?_, ?_⟩
      · rw [ihs, hstep]
        simp [List.filter_cons, hmsg] <;> omega
      · rw [ihf, hstep]
        simp [List.filter_cons, hmsg] <;> omega
      · rw [ihe, hstep]
        simp [List.filterMap_cons, hmsg]
    · cases hr : (upsert_document svc eng hasher d.point_id d.vector
          d.payload).1 with
      | ok r =>
        have hstep : batchDocStep svc eng hasher acc d =
            (⟨acc.1.success_count + 1, acc.1.failed_count, acc.1.errors⟩,
             acc.2 ++ (upsert_document svc eng hasher d.point_id d.vector
               d.payload).2) := by
          simp only [batchDocStep]
          rw [if_neg h1, hr]
        have hmsg : docFailureMsg svc eng hasher d = none := by
          simp only [docFailureMsg]
          rw [if_neg h1, hr]
        refine ⟨?_, ?_, ?_⟩
        · rw [ihs, hstep]
          simp [List.filter_cons, hmsg] <;> omega
        · rw [ihf, hstep]
          simp [List.filter_cons, hmsg] <;> omega
        · rw [ihe, hstep]
          simp [List.filterMap_cons, hmsg]
      | error e =>
        have hstep : batchDocStep svc eng hasher acc d =
            (⟨acc.1.success_count, acc.1.failed_count + 1,
              acc.1.errors ++
                ["Document " ++ d.point_id ++ ": " ++ e.toDisplayString]⟩,
             acc.2 ++ (upsert_document svc eng hasher d.point_id d.vector
               d.payload).2) := by
          simp only [batchDocStep]
          rw [if_neg h1, hr]
        have hmsg : docFailureMsg svc eng hasher d =
            some ("Document " ++ d.point_id ++ ": " ++ e.toDisplayString) := by
          simp only [docFailureMsg]
          rw [if_neg h1, hr]
        refine ⟨?_, ?_, ?_⟩
        · rw [ihs, hstep]
          simp [List.filter_cons, hmsg] <;> omega
        · rw [ihf, hstep]
          simp [List.filter_cons, hmsg] <;> omega
        · rw [ihe, hstep]
          simp [List.filterMap_cons, hmsg]

/-- A document request with a correctly sized (1024) vector, id "doc_a". -/
def goodDocA : UpsertDocumentRequest :=
  ⟨"doc_a", List.replicate 1024 (0.0 : Float), docPayloadSample⟩

/-- A document request with a wrong-dimension (empty) vector, id "doc_bad". -/
def badDocB : UpsertDocumentRequest := ⟨"doc_bad", [], docPayloadSample⟩

/-- A document request with a correctly sized (1024) vector, id "doc_c". -/
def goodDocC : UpsertDocumentRequest :=
  ⟨"doc_c", List.replicate 1024 (0.0 : Float), docPayloadSample⟩

set_option maxRecDepth 100000 in
/-- C7: a document batch of at most 100 chunks is processed per item:
the response counts successes and failures so that they sum to the number of
chunks submitted, records exactly one error message per failed chunk (in
order, each prefixed with that chunk's string id), and a failing chunk does
not stop the remaining chunks from being processed; in particular a batch of
3 documents with one bad-dimension vector yields successCount 2,
failedCount 1, and the single error names the bad point's id. -/
theorem C7_batch_documents_item_isolation :
    (∀ (svc : QdrantService) (eng : Engine) (hasher : String → Nat)
      (documents : List UpsertDocumentRequest),
      documents.length ≤ 100 →
      (batch_upsert_documents svc eng hasher documents).1 =
        .ok ⟨(documents.filter (fun d =>
                (docFailureMsg svc eng hasher d).isNone)).length,
             (documents.filter (fun d =>
                (docFailureMsg svc eng hasher d).isSome)).length,
             documents.filterMap (docFailureMsg svc eng hasher)⟩ ∧
      (documents.filter (fun d =>
          (docFailureMsg svc eng hasher d).isNone)).length +
        (documents.filter (fun d =>
          (docFailureMsg svc eng hasher d).isSome)).length =
        documents.length ∧
      (documents.filterMap (docFailureMsg svc eng hasher)).length =
        (documents.filter (fun d =>
          (docFailureMsg svc eng hasher d).isSome)).length) ∧
    (∀ (svc : QdrantService) (eng : Engine) (hasher : String → Nat)
      (d : UpsertDocumentRequest) (m : String),
      docFailureMsg svc eng hasher d = some m →
      ∃ rest, m = "Document " ++ d.point_id ++ ": " ++ rest) ∧
    (batch_upsert_documents svcDefault allOkEngine hasherZero
      [goodDocA, badDocB, goodDocC]).1 =
      .ok ⟨2, 1, ["Document doc_bad: invalid vector dimension"]⟩ := by
  refine ⟨?_, ?_, ?_⟩
  · intro svc eng hasher documents hlen
    obtain ⟨hs, hf, he⟩ := foldl_batchDocStep_characterization svc eng hasher
      documents (⟨0, 0, []⟩, [])
    have hout : (batch_upsert_documents svc eng hasher documents).1 =
        .ok (documents.foldl (batchDocStep svc eng hasher) (⟨0, 0, []⟩, [])).1 := by
      simp only [batch_upsert_documents]
      rw [if_neg (by omega)]
    refine ⟨?_, ?_, ?_⟩
    · rw [hout]
      congr 1
      have hz : (documents.foldl (batchDocStep svc eng hasher)
          (⟨0, 0, []⟩, [])).1 =
          ⟨(documents.foldl (batchDocStep svc eng hasher) (⟨0, 0, []⟩, [])).1.success_count,
           (documents.foldl (batchDocStep svc eng hasher) (⟨0, 0, []⟩, [])).1.failed_count,
           (documents.foldl (batchDocStep svc eng hasher) (⟨0, 0, []⟩, [])).1.errors⟩ := rfl
      rw [hz, hs, hf, he]
      simp
    · rw [length_filter_isNone_add_isSome]
    · rw [length_filterMap_eq_length_filter_isSome]
  · intro svc eng hasher d m hm
    by_cases h1 : d.vector.length ≠ 1024
    · rw [docFailureMsg, if_pos h1] at hm
      refine ⟨"invalid vector dimension", ?_⟩
      rw [← (Option.some.inj hm)]
      simp only [String.append_assoc]
      have hlit : (": invalid vector dimension" : String) =
          ": " ++ "invalid vector dimension" := by decide
      rw [hlit]
    · rw [docFailureMsg, if_neg h1] at hm
      cases hr : (upsert_document svc eng hasher d.point_id d.vector
          d.payload).1 with
      | ok r => rw [hr] at hm; exact Option.noConfusion hm
      | error e =>
        rw [hr] at hm
        exact ⟨e.toDisplayString, (Option.some.inj hm).symm⟩
  · rfl

/-- C7 witness: the batch theorem applied at the concrete 3-document batch
(one bad dimension) against the all-success engine. -/
theorem C7_witness_concrete :
    (batch_upsert_documents svcDefault allOkEngine hasherZero
      [goodDocA, badDocB, goodDocC]).1 =
      .ok ⟨([goodDocA, badDocB, goodDocC].filter (fun d =>
              (docFailureMsg svcDefault allOkEngine hasherZero d).isNone)).length,
           ([goodDocA, badDocB, goodDocC].filter (fun d =>
              (docFailureMsg svcDefault allOkEngine hasherZero d).isSome)).length,
           [goodDocA, badDocB, goodDocC].filterMap
             (docFailureMsg svcDefault allOkEngine hasherZero)⟩ := by
  exact (C7_batch_documents_item_isolation.1 svcDefault allOkEngine hasherZero
    [goodDocA, badDocB, goodDocC] (by decide)).1
